import Mathlib

/-!
Shallow embedding of the request store of `infinitystream-bot`.

The store lives in `src/db.py`: a JSON file holding a list of request
records.  Every operation loads the whole file, normalizes it (sort by id,
renumber 1..N), mutates the in-memory list and writes the whole file back.
The duplicate-check helper `find_duplicate_request` lives in
`src/discord_bot.py` and is a pure query over `list_all_requests()`.

Modelling choices:
* A JSON record dictionary is `StoredDict`: each field the dictionary may
  carry, as an `Option` of its JSON type (`none` = key absent).  `d.get(k, v)`
  becomes `Option.getD`.
* The backing file is `DiskFile`: `absent` (no file), `corrupt` (file exists
  but `json.loads` fails or yields a non-dict), or `valid requests`
  (parsable, with its `"requests"` list).  The `meta` object is version
  bookkeeping only and never affects the request list, so it is not modelled.
* Python's `list.sort(key=...)` is a stable sort; it is embedded as a stable
  insertion sort `sortById` (observationally equal to any stable sort).
* `datetime.now(...)` is passed in as the explicit `now : String` argument.
* Each Python function taking the implicit file state becomes a Lean
  function from `DiskFile` to (result, new `DiskFile`).
-/

namespace InfinityStream

/-- One request record (`RequestItem` dataclass in `db.py`). -/
structure RequestItem where
  id : Int
  user_id : String
  platform : String
  title : String
  year : Int
  category : String
  status : String
  created_at : String
  result : String
deriving Repr, DecidableEq

/-- A JSON dictionary for one stored record: every key the code reads,
as an optional value (`none` = key missing from the dictionary). -/
structure StoredDict where
  id : Option Int
  user_id : Option String
  platform : Option String
  title : Option String
  year : Option Int
  category : Option String
  status : Option String
  created_at : Option String
  result : Option String
deriving Repr, DecidableEq

/-- `RequestItem.to_dict` (db.py lines 60-71): serialize every field. -/
def RequestItem.to_dict (it : RequestItem) : StoredDict :=
  { id := some it.id
    user_id := some it.user_id
    platform := some it.platform
    title := some it.title
    year := some it.year
    category := some it.category
    status := some it.status
    created_at := some it.created_at
    result := some it.result }

/-- `RequestItem.from_dict` (db.py lines 73-99).

The Python body first coerces `result` to the allowed enum, then applies the
legacy-status migration (`ajout_dispo` sets `result = "dispo"` when the
coerced result is empty and rewrites status to `en_cours`; `traitee`
rewrites status to `en_cours`), then builds the record with per-field
defaults for missing keys.  The nested statements are flattened into `let`
bindings; `result2` changes from `result1` exactly in the
`ajout_dispo`-with-empty-result branch, as in the source. -/
def RequestItem.from_dict (d : StoredDict) : RequestItem :=
  let result0 := d.result.getD ""
  let result1 := if result0 = "" ∨ result0 = "dispo" ∨ result0 = "non_dispo" then result0 else ""
  let status0 := d.status.getD "file_attente"
  let status1 :=
    if status0 = "ajout_dispo" then "en_cours"
    else if status0 = "traitee" then "en_cours"
    else status0
  let result2 := if status0 = "ajout_dispo" ∧ result1 = "" then "dispo" else result1
  { id := d.id.getD 0
    user_id := d.user_id.getD ""
    platform := d.platform.getD "discord"
    title := d.title.getD ""
    year := d.year.getD 0
    category := d.category.getD ""
    status := status1
    created_at := d.created_at.getD ""
    result := result2 }

/-- State of the backing JSON file. -/
inductive DiskFile where
  /-- The file does not exist. -/
  | absent
  /-- The file exists but cannot be parsed as the expected structure. -/
  | corrupt
  /-- The file parses; `requests` is its `"requests"` list. -/
  | valid (requests : List StoredDict)
deriving Repr, DecidableEq

/-- `_read_db_unlocked` (db.py lines 113-131): if the file is absent, write a
fresh empty structure and return it; if it is corrupt, fall back to the empty
structure in memory without writing; otherwise return the parsed contents. -/
def readDb : DiskFile → List StoredDict × DiskFile
  | .absent => ([], .valid [])
  | .corrupt => ([], .corrupt)
  | .valid rs => (rs, .valid rs)

/-- Stable insertion of a record into a list sorted by ascending id:
the new record goes before the first strictly larger id, after equal ids
to its left.  Building block of the stable sort `sortById`. -/
def insertById (it : RequestItem) : List RequestItem → List RequestItem
  | [] => [it]
  | x :: xs => if it.id ≤ x.id then it :: x :: xs else x :: insertById it xs

/-- `items.sort(key=lambda x: x.id)` (db.py line 149): a stable sort by
ascending id, embedded as insertion sort. -/
def sortById (items : List RequestItem) : List RequestItem :=
  items.foldr insertById []

/-- `for idx, it in enumerate(items, start=k): it.id = idx` — reassign ids
`k, k+1, ...` by position. -/
def renumberFrom (k : Int) : List RequestItem → List RequestItem
  | [] => []
  | it :: rest => { it with id := k } :: renumberFrom (k + 1) rest

/-- Renumbering from 1, as done on every load and every delete. -/
def renumber (items : List RequestItem) : List RequestItem :=
  renumberFrom 1 items

/-- `_load_requests_unlocked` (db.py lines 141-152): read the file, parse
each dictionary, sort by id, renumber 1..N.  Returns the loaded list and
the file state after the read (the read creates the file when absent). -/
def loadRequests (d : DiskFile) : List RequestItem × DiskFile :=
  let (rs, d1) := readDb d
  (renumber (sortById (rs.map RequestItem.from_dict)), d1)

/-- The list a load observes. -/
def load (d : DiskFile) : List RequestItem := (loadRequests d).1

/-- The file state after a read (`absent` becomes an empty valid file;
`corrupt` and `valid` are left untouched). -/
def touch (d : DiskFile) : DiskFile := (loadRequests d).2

/-- `_save_requests_unlocked` + `_write_db_unlocked` (db.py lines 134-162):
the whole collection is serialized and atomically replaces the file. -/
def saveRequests (items : List RequestItem) : DiskFile :=
  .valid (items.map RequestItem.to_dict)

/-- `init_db` (db.py lines 167-170): just a read, creating the file if absent. -/
def init_db (d : DiskFile) : DiskFile := touch d

/-- `add_request` (db.py lines 173-199).  `now` stands for
`_utc_now_iso()`; the new record is appended with id = count + 1 and an
empty result, and the collection is persisted. -/
def add_request (d : DiskFile) (user_id platform title : String) (year : Int)
    (category status now : String) : Int × DiskFile :=
  let items := load d
  let new_id : Int := (items.length : Int) + 1
  let items1 := items ++
    [{ id := new_id, user_id := user_id, platform := platform, title := title,
       year := year, category := category, status := status,
       created_at := now, result := "" }]
  (new_id, saveRequests items1)

/-- `list_all_requests` (db.py lines 202-208): a full load. -/
def list_all_requests (d : DiskFile) : List RequestItem × DiskFile :=
  loadRequests d

/-- `list_open_requests` (db.py lines 211-220): records whose status is
`file_attente` or `en_cours` and whose result is empty. -/
def list_open_requests (d : DiskFile) : List RequestItem × DiskFile :=
  let (items, d1) := loadRequests d
  (items.filter (fun it =>
    (it.status == "file_attente" || it.status == "en_cours") && it.result == ""), d1)

/-- The `for it in items: if it.id == request_id: ...; break` pattern of
`update_status` / `update_result`: apply `f` to the first record satisfying
`p`, or report `none` when no record does. -/
def updateFirst (p : RequestItem → Bool) (f : RequestItem → RequestItem) :
    List RequestItem → Option (List RequestItem)
  | [] => none
  | it :: rest =>
    if p it then some (f it :: rest)
    else (updateFirst p f rest).map (it :: ·)

/-- `update_status` (db.py lines 223-235): set the status of the record with
the given id and persist; return false (without saving) when absent. -/
def update_status (d : DiskFile) (request_id : Int) (new_status : String) :
    Bool × DiskFile :=
  match updateFirst (fun it => it.id == request_id)
      (fun it => { it with status := new_status }) (load d) with
  | none => (false, touch d)
  | some items => (true, saveRequests items)

/-- `update_result` (db.py lines 238-254): reject a result code outside the
enum before touching the file at all; otherwise set the result of the record
with the given id and persist, or return false when the id is absent. -/
def update_result (d : DiskFile) (request_id : Int) (result_code : String) :
    Bool × DiskFile :=
  if result_code = "" ∨ result_code = "dispo" ∨ result_code = "non_dispo" then
    match updateFirst (fun it => it.id == request_id)
        (fun it => { it with result := result_code }) (load d) with
    | none => (false, touch d)
    | some items => (true, saveRequests items)
  else (false, d)

/-- `delete_request` (db.py lines 257-271): drop every record with the given
id, renumber 1..N, persist; return false (without saving) when nothing was
dropped. -/
def delete_request (d : DiskFile) (request_id : Int) : Bool × DiskFile :=
  let items := load d
  let items1 := items.filter (fun it => it.id != request_id)
  if items1.length = items.length then (false, touch d)
  else (true, saveRequests (renumber items1))

/-- Drop leading whitespace characters from a character list. -/
def dropWhileWs : List Char → List Char
  | [] => []
  | c :: cs => if c.isWhitespace then dropWhileWs cs else c :: cs

/-- Python's `str.strip()`: remove surrounding whitespace (embedded
structurally over the character list so that it evaluates). -/
def pyStrip (s : String) : String :=
  String.mk (dropWhileWs ((dropWhileWs s.data.reverse).reverse))

/-- Python's `str.lower()` (ASCII case mapping, like `Char.toLower`). -/
def pyLower (s : String) : String := String.mk (s.data.map Char.toLower)

/-- `title.strip().lower()` — the normalized title used for duplicate
detection. -/
def normTitle (s : String) : String := pyLower (pyStrip s)

/-- Row match of `find_duplicate_request` (discord_bot.py lines 197-211):
same stripped lower-cased title, same year, same category. -/
def isDupRow (row : RequestItem) (normalized_title : String) (year : Int)
    (category : String) : Bool :=
  normTitle row.title == normalized_title && row.year == year
    && row.category == category

/-- `find_duplicate_request` (discord_bot.py lines 197-211): first record of
`list_all_requests()` matching on (stripped lower-cased title, year,
category), else `none`. -/
def find_duplicate_request (d : DiskFile) (title : String) (year : Int)
    (category : String) : Option RequestItem :=
  (list_all_requests d).1.find? (fun row => isDupRow row (normTitle title) year category)

/-- One store mutation of the create/delete fragment. -/
inductive Op where
  | create (user_id platform title : String) (year : Int) (category status now : String)
  | delete (request_id : Int)
deriving Repr, DecidableEq

/-- Apply one operation to the file state. -/
def applyOp (d : DiskFile) : Op → DiskFile
  | .create u p t y c s n => (add_request d u p t y c s n).2
  | .delete rid => (delete_request d rid).2

/-- Run a sequence of create/delete operations from the empty store. -/
def runOps (ops : List Op) : DiskFile := ops.foldl applyOp (.valid [])

/-- The ids a canonical (freshly loaded) collection shows: 1, 2, ..., N. -/
def canonicalIds (n : Nat) : List Int :=
  (List.range n).map (fun (i : Nat) => (i : Int) + 1)

/-- A record that serialization does not alter: no legacy status, result
inside the enum.  Every record produced by a load is of this shape. -/
def NormalItem (it : RequestItem) : Prop :=
  it.status ≠ "ajout_dispo" ∧ it.status ≠ "traitee" ∧
    (it.result = "" ∨ it.result = "dispo" ∨ it.result = "non_dispo")

instance (it : RequestItem) : Decidable (NormalItem it) := by
  unfold NormalItem; infer_instance

/-- Sample record 1 (for concrete instantiations). -/
def sampleItem1 : RequestItem :=
  { id := 1, user_id := "u1", platform := "discord", title := "Dune", year := 2021,
    category := "film", status := "file_attente", created_at := "2024-01-01 00:00:00",
    result := "" }

/-- Sample record 2. -/
def sampleItem2 : RequestItem :=
  { id := 2, user_id := "u2", platform := "telegram", title := "Alien", year := 1979,
    category := "film", status := "en_cours", created_at := "2024-01-02 00:00:00",
    result := "dispo" }

/-- Sample record 3. -/
def sampleItem3 : RequestItem :=
  { id := 3, user_id := "u3", platform := "discord", title := "Heat", year := 1995,
    category := "serie", status := "file_attente", created_at := "2024-01-03 00:00:00",
    result := "" }

/-- A store persisted with the three sample records. -/
def sampleDisk3 : DiskFile := saveRequests [sampleItem1, sampleItem2, sampleItem3]

/-- A stored dictionary with the legacy "processed" status and empty result,
as in the spec's legacy-load scenario. -/
def legacyDict : StoredDict :=
  { id := some 1, user_id := some "u9", platform := some "discord",
    title := some "Old", year := some 1999, category := some "film",
    status := some "traitee", created_at := some "2020-01-01 00:00:00",
    result := some "" }

/-! ## Helper lemmas -/

theorem renumberFrom_length (k : Int) (xs : List RequestItem) :
    (renumberFrom k xs).length = xs.length := by
  induction xs generalizing k with
  | nil => rfl
  | cons x xs ih => simp [renumberFrom, ih]

theorem renumberFrom_map_id (k : Int) (xs : List RequestItem) :
    (renumberFrom k xs).map (fun it => it.id) =
      (List.range xs.length).map (fun (i : Nat) => k + (i : Int)) := by
  induction xs generalizing k with
  | nil => simp [renumberFrom]
  | cons x xs ih =>
    rw [renumberFrom, List.map_cons, ih, List.length_cons, List.range_succ_eq_map,
      List.map_cons, List.map_map]
    refine congrArg₂ List.cons (by simp) (List.map_congr_left ?_)
    intro a _
    simp only [Function.comp_apply]
    push_cast
    ring

theorem renumberFrom_get (k : Int) (xs : List RequestItem) (i : Nat)
    (h : i < (renumberFrom k xs).length) :
    ((renumberFrom k xs).get ⟨i, h⟩).id = k + (i : Int) := by
  induction xs generalizing k i with
  | nil => simp [renumberFrom] at h
  | cons x xs ih =>
    cases i with
    | zero => simp [renumberFrom]
    | succ j =>
      have hj : j < (renumberFrom (k + 1) xs).length := by
        simpa [renumberFrom] using h
      have := ih (k + 1) j hj
      simp only [renumberFrom, List.get_cons_succ]
      rw [this]
      push_cast
      ring

theorem loadRequests_eq (d : DiskFile) :
    loadRequests d =
      (renumber (sortById (((readDb d).1).map RequestItem.from_dict)), (readDb d).2) := by
  cases d <;> rfl

theorem load_eq (d : DiskFile) :
    load d = renumber (sortById (((readDb d).1).map RequestItem.from_dict)) := by
  rw [load, loadRequests_eq]

theorem touch_eq (d : DiskFile) : touch d = (readDb d).2 := by
  rw [touch, loadRequests_eq]

theorem load_map_id (d : DiskFile) :
    (load d).map (fun it => it.id) = canonicalIds (load d).length := by
  rw [load_eq, renumber, canonicalIds, renumberFrom_map_id, renumberFrom_length]
  exact List.map_congr_left (fun a _ => by ring)

theorem load_get_id (d : DiskFile) (i : Nat) (h : i < (load d).length) :
    ((load d).get ⟨i, h⟩).id = (i : Int) + 1 := by
  have h1 : i < (renumberFrom 1 (sortById (((readDb d).1).map RequestItem.from_dict))).length := by
    rw [← renumber]; rw [← load_eq]; exact h
  have := renumberFrom_get 1 (sortById (((readDb d).1).map RequestItem.from_dict)) i h1
  have heq : load d = renumberFrom 1 (sortById (((readDb d).1).map RequestItem.from_dict)) := by
    rw [load_eq, renumber]
  rw [show ((load d).get ⟨i, h⟩) = ((renumberFrom 1 (sortById (((readDb d).1).map RequestItem.from_dict))).get ⟨i, h1⟩) from by
    congr 1]
  rw [this]; ring

theorem updateFirst_eq_none (p : RequestItem → Bool) (f : RequestItem → RequestItem)
    (l : List RequestItem) (h : ∀ it ∈ l, p it = false) : updateFirst p f l = none := by
  induction l with
  | nil => rfl
  | cons x xs ih =>
    have hx := h x (by simp)
    simp [updateFirst, hx, ih (fun it hit => h it (by simp [hit]))]

theorem updateFirst_eq_set (p : RequestItem → Bool) (f : RequestItem → RequestItem)
    (l : List RequestItem) (i : Nat) (h : i < l.length)
    (hbefore : ∀ j (hj : j < i), p (l.get ⟨j, Nat.lt_trans hj h⟩) = false)
    (hi : p (l.get ⟨i, h⟩) = true) :
    updateFirst p f l = some (l.set i (f (l.get ⟨i, h⟩))) := by
  induction l generalizing i with
  | nil => simp at h
  | cons x xs ih =>
    cases i with
    | zero =>
      simp only [List.get] at hi
      simp [updateFirst, hi, List.set]
    | succ j =>
      have hx : p x = false := hbefore 0 (Nat.succ_pos j)
      have hj : j < xs.length := Nat.lt_of_succ_lt_succ h
      have hrec := ih j hj
        (fun m hm => by simpa using hbefore (m + 1) (Nat.succ_lt_succ hm))
        (by simpa using hi)
      simp [updateFirst, hx, hrec, List.set]

theorem filter_eq_eraseIdx {α : Type} (q : α → Bool) (l : List α) (i : Nat)
    (h : i < l.length) (hi : q (l.get ⟨i, h⟩) = false)
    (hother : ∀ j (hj : j < l.length), j ≠ i → q (l.get ⟨j, hj⟩) = true) :
    l.filter q = l.eraseIdx i := by
  induction l generalizing i with
  | nil => simp at h
  | cons x xs ih =>
    cases i with
    | zero =>
      have hx : q x = false := hi
      have hrest : xs.filter q = xs := by
        refine List.filter_eq_self.mpr (fun a ha => ?_)
        obtain ⟨⟨m, hm⟩, rfl⟩ := List.mem_iff_get.mp ha
        simpa using hother (m + 1) (Nat.succ_lt_succ hm) (Nat.succ_ne_zero m)
      simp [hx, hrest, List.eraseIdx]
    | succ j =>
      have hx : q x = true := hother 0 (Nat.succ_pos _) (Nat.zero_ne_add_one j).elim
      have hj : j < xs.length := Nat.lt_of_succ_lt_succ h
      have hrec := ih j hj (by simpa using hi)
        (fun m hm hne => by
          simpa using hother (m + 1) (Nat.succ_lt_succ hm) (fun hc => hne (Nat.succ_injective hc)))
      simp [hx, hrec, List.eraseIdx]

theorem from_to_id (it : RequestItem) (h : NormalItem it) :
    RequestItem.from_dict it.to_dict = it := by
  obtain ⟨h1, h2, h3⟩ := h
  simp only [RequestItem.to_dict, RequestItem.from_dict, Option.getD_some]
  rw [if_pos h3, if_neg h1, if_neg h2, if_neg (fun hc => h1 hc.1)]

theorem map_from_to (items : List RequestItem) (hN : ∀ it ∈ items, NormalItem it) :
    (items.map RequestItem.to_dict).map RequestItem.from_dict = items := by
  rw [List.map_map]
  rw [List.map_congr_left
    (fun it hit => (Function.comp_apply).trans (from_to_id it (hN it hit)))]
  exact List.map_id items

theorem sortById_of_sorted (l : List RequestItem)
    (h : List.Pairwise (fun a b => a.id ≤ b.id) l) : sortById l = l := by
  induction l with
  | nil => rfl
  | cons x xs ih =>
    obtain ⟨hx, htail⟩ := List.pairwise_cons.mp h
    have hxs : sortById xs = xs := ih htail
    show insertById x (sortById xs) = x :: xs
    rw [hxs]
    cases xs with
    | nil => rfl
    | cons y ys => simp [insertById, hx y (by simp)]

theorem renumberFrom_of_ids (k : Int) (l : List RequestItem)
    (h : ∀ i (hi : i < l.length), (l.get ⟨i, hi⟩).id = k + (i : Int)) :
    renumberFrom k l = l := by
  induction l generalizing k with
  | nil => rfl
  | cons x xs ih =>
    have h0 : x.id = k := by simpa using h 0 (Nat.succ_pos _)
    have hrest : renumberFrom (k + 1) xs = xs := by
      refine ih (k + 1) (fun i hi => ?_)
      have h2 := h (i + 1) (Nat.succ_lt_succ hi)
      simp only [List.get_cons_succ] at h2
      rw [h2]
      push_cast
      ring
    rw [renumberFrom, hrest]
    have hx : ({ x with id := k } : RequestItem) = x := by rw [← h0]
    rw [hx]

theorem load_saveRequests (items : List RequestItem)
    (hN : ∀ it ∈ items, NormalItem it)
    (hC : ∀ i (hi : i < items.length), (items.get ⟨i, hi⟩).id = (i : Int) + 1) :
    load (saveRequests items) = items := by
  rw [load_eq]
  show renumber (sortById ((items.map RequestItem.to_dict).map RequestItem.from_dict)) = items
  rw [map_from_to items hN]
  have hsorted : List.Pairwise (fun a b : RequestItem => a.id ≤ b.id) items := by
    rw [List.pairwise_iff_getElem]
    intro i j hi hj hij
    have gi := hC i hi
    have gj := hC j hj
    simp only [List.get_eq_getElem] at gi gj
    rw [gi, gj]
    omega
  rw [sortById_of_sorted items hsorted, renumber,
    renumberFrom_of_ids 1 items (fun i hi => by rw [hC i hi]; ring)]

theorem find?_first {α : Type} (p : α → Bool) (l : List α) (b : α)
    (h : l.find? p = some b) :
    p b = true ∧ ∃ i, ∃ (hi : i < l.length), l.get ⟨i, hi⟩ = b ∧
      ∀ j (hj : j < i), p (l.get ⟨j, Nat.lt_trans hj hi⟩) = false := by
  induction l with
  | nil => simp at h
  | cons x xs ih =>
    by_cases hx : p x = true
    · rw [List.find?_cons_of_pos _ hx] at h
      obtain rfl : x = b := Option.some.inj h
      exact ⟨hx, 0, Nat.succ_pos _, rfl, fun j hj => absurd hj (Nat.not_lt_zero j)⟩
    · have hx1 : p x = false := Bool.eq_false_iff.mpr hx
      rw [List.find?_cons_of_neg _ (by simp [hx1])] at h
      obtain ⟨hb, i, hi, heq, hbefore⟩ := ih h
      refine ⟨hb, i + 1, Nat.succ_lt_succ hi, by simpa using heq, ?_⟩
      intro j hj
      cases j with
      | zero => simpa using hx1
      | succ m => simpa using hbefore m (Nat.lt_of_succ_lt_succ hj)

/-! ## Claim theorems -/

/-- Claim C1: for every sequence of create/delete operations starting from the
empty store, `list_all()` returns records whose ids are exactly 1..N in
ascending order, where N is the record count. -/
theorem id_density_invariant (ops : List Op) :
    ((list_all_requests (runOps ops)).1).map (fun it => it.id) =
      canonicalIds ((list_all_requests (runOps ops)).1).length :=
  load_map_id (runOps ops)

/-- Claim C2: `add_request` returns the new id = previous count + 1 and
persists exactly the previous records (serialized unchanged) followed by one
new record with that id, the given fields, `created_at` = the current time
and an empty result. -/
theorem add_request_appends (d : DiskFile) (u p t : String) (y : Int) (c s n : String) :
    (add_request d u p t y c s n).1 = ((load d).length : Int) + 1 ∧
    (add_request d u p t y c s n).2 = DiskFile.valid
      ((load d).map RequestItem.to_dict ++
        [RequestItem.to_dict
          { id := ((load d).length : Int) + 1, user_id := u, platform := p, title := t,
            year := y, category := c, status := s, created_at := n, result := "" }]) := by
  refine ⟨rfl, ?_⟩
  simp [add_request, saveRequests]

/-- Claim C8: `update_status` with an id present in the store sets exactly that
record's status to the given string (any string accepted) and persists, every
other field and record unchanged; with an absent id it returns false and
persists nothing. -/
theorem update_status_frame (d : DiskFile) (rid : Int) (s : String) :
    ((∀ it ∈ load d, it.id ≠ rid) → update_status d rid s = (false, touch d)) ∧
    (∀ i (h : i < (load d).length), ((load d).get ⟨i, h⟩).id = rid →
      update_status d rid s =
        (true, saveRequests ((load d).set i { (load d).get ⟨i, h⟩ with status := s }))) := by
  constructor
  · intro hno
    have hnone : updateFirst (fun it => it.id == rid)
        (fun it => { it with status := s }) (load d) = none :=
      updateFirst_eq_none _ _ _ (fun it hit => by simp [hno it hit])
    simp [update_status, hnone]
  · intro i h hid
    have hset := updateFirst_eq_set (fun it => it.id == rid)
      (fun it => { it with status := s }) (load d) i h
      (fun j hj => by
        have hgj := load_get_id d j (Nat.lt_trans hj h)
        have hgi := load_get_id d i h
        simp only [beq_eq_false_iff_ne, ne_eq, hgj, ← hid, hgi]
        intro hcon
        omega)
      (by simpa using hid)
    simp [update_status, hset]

/-- Witness for C8: on the three-record store, setting the status of id 2
succeeds and rewrites exactly that record. -/
theorem update_status_frame_witness :
    ((load sampleDisk3).get ⟨1, by decide⟩).id = 2 ∧
      update_status sampleDisk3 2 "pas_encore_sorti" =
        (true, saveRequests ((load sampleDisk3).set 1
          { (load sampleDisk3).get ⟨1, by decide⟩ with status := "pas_encore_sorti" })) :=
  ⟨by decide, (update_status_frame sampleDisk3 2 "pas_encore_sorti").2 1 (by decide) (by decide)⟩

/-- Claim C3: `update_result` rejects any result code outside
{"", "dispo", "non_dispo"} before touching the file (returns false, nothing
mutated or persisted); with an allowed code it returns false without saving
when the id is absent, and otherwise sets exactly that record's result and
persists. -/
theorem update_result_enum_closure (d : DiskFile) (rid : Int) (code : String) :
    (¬(code = "" ∨ code = "dispo" ∨ code = "non_dispo") →
      update_result d rid code = (false, d)) ∧
    ((code = "" ∨ code = "dispo" ∨ code = "non_dispo") → (∀ it ∈ load d, it.id ≠ rid) →
      update_result d rid code = (false, touch d)) ∧
    ((code = "" ∨ code = "dispo" ∨ code = "non_dispo") →
      ∀ i (h : i < (load d).length), ((load d).get ⟨i, h⟩).id = rid →
        update_result d rid code =
          (true, saveRequests ((load d).set i { (load d).get ⟨i, h⟩ with result := code }))) := by
  refine ⟨fun hbad => ?_, fun hcode hno => ?_, fun hcode i h hid => ?_⟩
  · simp [update_result, hbad]
  · have hnone : updateFirst (fun it => it.id == rid)
        (fun it => { it with result := code }) (load d) = none :=
      updateFirst_eq_none _ _ _ (fun it hit => by simp [hno it hit])
    simp [update_result, hcode, hnone]
  · have hset := updateFirst_eq_set (fun it => it.id == rid)
      (fun it => { it with result := code }) (load d) i h
      (fun j hj => by
        have hgj := load_get_id d j (Nat.lt_trans hj h)
        have hgi := load_get_id d i h
        simp only [beq_eq_false_iff_ne, ne_eq, hgj, ← hid, hgi]
        intro hcon
        omega)
      (by simpa using hid)
    simp [update_result, hcode, hset]

/-- Witness for C3: `set_result(99, "dispo")` on an empty store returns false
and creates no record. -/
theorem update_result_enum_closure_witness :
    (∀ it ∈ load (DiskFile.valid []), it.id ≠ 99) ∧
      update_result (DiskFile.valid []) 99 "dispo" = (false, touch (DiskFile.valid [])) :=
  ⟨by decide, (update_result_enum_closure (DiskFile.valid []) 99 "dispo").2.1
    (Or.inr (Or.inl rfl)) (by decide)⟩

/-- Claim C4: `delete_request` with a present id removes exactly that record,
renumbers the rest 1..N in ascending original-id order with other fields
unchanged, persists, and returns true; with an absent id it returns false and
persists nothing. -/
theorem delete_request_spec (d : DiskFile) (rid : Int) :
    ((∀ it ∈ load d, it.id ≠ rid) → delete_request d rid = (false, touch d)) ∧
    (∀ i (h : i < (load d).length), ((load d).get ⟨i, h⟩).id = rid →
      delete_request d rid = (true, saveRequests (renumber ((load d).eraseIdx i)))) := by
  constructor
  · intro hno
    have hfil : (load d).filter (fun it => it.id != rid) = load d :=
      List.filter_eq_self.mpr (fun it hit => by simp [hno it hit])
    simp [delete_request, hfil]
  · intro i h hid
    have hfil : (load d).filter (fun it => it.id != rid) = (load d).eraseIdx i := by
      refine filter_eq_eraseIdx _ _ i h (by simpa using hid) (fun j hj hne => ?_)
      have hgj := load_get_id d j hj
      have hgi := load_get_id d i h
      simp only [bne_iff_ne, ne_eq, hgj, ← hid, hgi]
      intro hcon
      exact hne (by omega)
    have hlen : ((load d).eraseIdx i).length ≠ (load d).length := by
      rw [List.length_eraseIdx_of_lt h]
      omega
    simp [delete_request, hfil, hlen]

/-- Witness for C4: the spec scenario — three records, delete id 2; the record
formerly id 3 becomes id 2 with every other field unchanged. -/
theorem delete_request_spec_witness :
    ((load sampleDisk3).get ⟨1, by decide⟩).id = 2 ∧
      delete_request sampleDisk3 2 =
        (true, saveRequests (renumber ((load sampleDisk3).eraseIdx 1))) ∧
      (list_all_requests (delete_request sampleDisk3 2).2).1 =
        [sampleItem1, { sampleItem3 with id := 2 }] :=
  ⟨by decide, (delete_request_spec sampleDisk3 2).2 1 (by decide) (by decide), by decide⟩

/-- Claim C5: `from_dict` legacy normalization — an `ajout_dispo` status with
empty stored result loads as status `en_cours` with result `dispo`; a
`traitee` status loads as `en_cours` (with result still empty when the stored
result is empty); a result value outside {"", "dispo", "non_dispo"} is
treated exactly as the empty result. -/
theorem from_dict_legacy_normalization (d : StoredDict) :
    (d.status = some "ajout_dispo" → d.result.getD "" = "" →
      (RequestItem.from_dict d).status = "en_cours" ∧
        (RequestItem.from_dict d).result = "dispo") ∧
    (d.status = some "traitee" → (RequestItem.from_dict d).status = "en_cours") ∧
    (d.status = some "traitee" → d.result.getD "" = "" →
      (RequestItem.from_dict d).result = "") ∧
    (∀ r, d.result = some r → ¬(r = "" ∨ r = "dispo" ∨ r = "non_dispo") →
      RequestItem.from_dict d = RequestItem.from_dict { d with result := some "" }) := by
  refine ⟨fun hst hr => ?_, fun hst => ?_, fun hst hr => ?_, fun r hr hbad => ?_⟩
  · constructor <;> simp [RequestItem.from_dict, hst, hr]
  · simp [RequestItem.from_dict, hst]
  · simp [RequestItem.from_dict, hst, hr]
  · simp [RequestItem.from_dict, hr, hbad]

/-- Witness for C5: the spec scenario — legacy status "traitee" with empty
result loads as status `en_cours`, result "". -/
theorem from_dict_legacy_normalization_witness :
    (RequestItem.from_dict legacyDict).status = "en_cours" ∧
      (RequestItem.from_dict legacyDict).result = "" :=
  ⟨(from_dict_legacy_normalization legacyDict).2.1 rfl,
   (from_dict_legacy_normalization legacyDict).2.2.1 rfl rfl⟩

/-- Claim C6: for a collection of well-formed records (no legacy status,
result inside the enum, ids 1..N), serializing each record and deserializing
it back is the identity field for field, and a save-then-load cycle returns
the collection unchanged, order included. -/
theorem serialization_round_trip (items : List RequestItem)
    (hN : ∀ it ∈ items, NormalItem it)
    (hC : ∀ i (hi : i < items.length), (items.get ⟨i, hi⟩).id = (i : Int) + 1) :
    (items.map RequestItem.to_dict).map RequestItem.from_dict = items ∧
    load (saveRequests items) = items :=
  ⟨map_from_to items hN, load_saveRequests items hN hC⟩

/-- Witness for C6: a concrete two-record collection round-trips. -/
theorem serialization_round_trip_witness :
    (∀ it ∈ [sampleItem1, sampleItem2], NormalItem it) ∧
      load (saveRequests [sampleItem1, sampleItem2]) = [sampleItem1, sampleItem2] :=
  ⟨by decide,
   (serialization_round_trip [sampleItem1, sampleItem2] (by decide) (by decide)).2⟩

/-- Claim C7: `find_duplicate_request` matches on (trimmed lower-cased title,
year, category): it returns `none` exactly when no record matches, any
returned record is the first match in `list_all()` (ascending id) order, and
after creating a record, a second attempt whose title differs only by case
and surrounding whitespace (same year and category) is reported as a
duplicate of that record. -/
theorem find_duplicate_key (d : DiskFile) (t : String) (y : Int) (c : String) :
    (find_duplicate_request d t y c = none ↔
      ∀ r ∈ (list_all_requests d).1, isDupRow r (normTitle t) y c = false) ∧
    (∀ r, find_duplicate_request d t y c = some r →
      isDupRow r (normTitle t) y c = true ∧
      ∃ i, ∃ (hi : i < (list_all_requests d).1.length),
        (list_all_requests d).1.get ⟨i, hi⟩ = r ∧
          ∀ j (hj : j < i),
            isDupRow ((list_all_requests d).1.get ⟨j, Nat.lt_trans hj hi⟩)
              (normTitle t) y c = false) ∧
    (∀ u pf n t2, normTitle t2 = normTitle t →
      find_duplicate_request
          (add_request (DiskFile.valid []) u pf t y c "file_attente" n).2 t2 y c =
        some { id := 1, user_id := u, platform := pf, title := t, year := y,
               category := c, status := "file_attente", created_at := n, result := "" }) := by
  refine ⟨?_, fun r h => ?_, fun u pf n t2 ht => ?_⟩
  · rw [find_duplicate_request, List.find?_eq_none]
    simp only [Bool.not_eq_true]
  · rw [find_duplicate_request] at h
    exact find?_first _ _ _ h
  · simp [find_duplicate_request, list_all_requests, loadRequests, readDb, add_request,
      load, saveRequests, sortById, insertById, renumber, renumberFrom,
      RequestItem.to_dict, RequestItem.from_dict, isDupRow, ht]

/-- Witness for C7: two attempts at "Dune" differing only in case and
whitespace, same year and category, are matched. -/
theorem find_duplicate_key_witness :
    (normTitle " dUNe" = normTitle "Dune ") ∧
      find_duplicate_request
          (add_request (DiskFile.valid []) "u1" "discord" "Dune " 2021 "film"
            "file_attente" "2024-01-01 00:00:00").2 " dUNe" 2021 "film" =
        some { id := 1, user_id := "u1", platform := "discord", title := "Dune ",
               year := 2021, category := "film", status := "file_attente",
               created_at := "2024-01-01 00:00:00", result := "" } :=
  ⟨by decide,
   (find_duplicate_key (DiskFile.valid []) "Dune " 2021 "film").2.2 "u1" "discord"
     "2024-01-01 00:00:00" " dUNe" (by decide)⟩

/-- Claim C9: a corrupt backing file is treated as an empty collection in
memory: reads and failed mutations raise nothing, observe no records, and
leave the corrupt file untouched on disk; the file is only replaced by the
next successful write (here, an `add_request`). -/
theorem corrupt_file_fallback (rid : Int) (s u pf t c n : String) (y : Int) :
    load DiskFile.corrupt = [] ∧
    list_all_requests DiskFile.corrupt = ([], DiskFile.corrupt) ∧
    list_open_requests DiskFile.corrupt = ([], DiskFile.corrupt) ∧
    init_db DiskFile.corrupt = DiskFile.corrupt ∧
    update_status DiskFile.corrupt rid s = (false, DiskFile.corrupt) ∧
    delete_request DiskFile.corrupt rid = (false, DiskFile.corrupt) ∧
    (add_request DiskFile.corrupt u pf t y c s n).2 =
      DiskFile.valid [RequestItem.to_dict
        { id := 1, user_id := u, platform := pf, title := t, year := y,
          category := c, status := s, created_at := n, result := "" }] :=
  ⟨rfl, rfl, rfl, rfl, rfl, rfl, rfl⟩

/-- Counterexample for C10: `update_result` with an out-of-enum result code
returns before touching storage, so on an absent backing file the file is
still absent after the operation completes. -/
theorem update_result_invalid_leaves_file_absent :
    update_result DiskFile.absent 1 "bogus" = (false, DiskFile.absent) := by
  decide

/-- Claim C10 (amended): every store operation other than `update_result`
with an out-of-enum result code creates the backing file when it is absent,
so after any such operation the file exists. -/
theorem operations_create_backing_file (u pf t : String) (y : Int)
    (c s n : String) (rid : Int) :
    init_db DiskFile.absent = DiskFile.valid [] ∧
    (list_all_requests DiskFile.absent).2 = DiskFile.valid [] ∧
    (list_open_requests DiskFile.absent).2 = DiskFile.valid [] ∧
    (update_status DiskFile.absent rid s).2 = DiskFile.valid [] ∧
    (update_result DiskFile.absent rid "").2 = DiskFile.valid [] ∧
    (update_result DiskFile.absent rid "dispo").2 = DiskFile.valid [] ∧
    (update_result DiskFile.absent rid "non_dispo").2 = DiskFile.valid [] ∧
    (delete_request DiskFile.absent rid).2 = DiskFile.valid [] ∧
    (add_request DiskFile.absent u pf t y c s n).2 =
      DiskFile.valid [RequestItem.to_dict
        { id := 1, user_id := u, platform := pf, title := t, year := y,
          category := c, status := s, created_at := n, result := "" }] := by
  refine ⟨rfl, rfl, rfl, rfl, ?_, ?_, ?_, rfl, rfl⟩ <;>
    simp [update_result, updateFirst, load, loadRequests, readDb, renumber,
      renumberFrom, sortById, touch]

end InfinityStream
